import Mathlib

/-!
# Shallow embedding of `transaction_processor.py` (Financial-Companion)

This file embeds the core of `src/transaction_processor.py`:

* `TransactionParser._extract_with_regex` and `TransactionParser.parse`
  (field extraction from free text, with the embedded-JSON branch),
* `TransactionValidator.validate_transaction`, `_validate_iban`,
  `_validate_account_number` (the rule engine),
* `TransactionProcessor.process_transaction` and `batch_process`
  (per-item containment and batch orchestration, in the regex mode used
  when no LLM is configured).

Modelling conventions:

* Python strings are Lean `String`s / `List Char`; `str.lower`/`str.upper`
  are modelled for the ASCII and Cyrillic ranges actually used by the
  program's patterns and keyword tables (other code points are fixed).
* Python `float` amounts are modelled as exact rationals (`Rat`).
* The specific regular expressions of the source are modelled by
  specialised matchers with Python `re.search` semantics (leftmost match,
  greedy/lazy quantifiers with backtracking where the pattern shape makes
  backtracking observable).
* Validation messages (Python f-strings) are modelled as an inductive
  message type whose constructors carry the interpolated data; the
  rendering to text is injective and irrelevant to the rule logic.
-/

namespace FinComp

/-- ASCII decimal digit, the `\d` class of the source's patterns on the
inputs considered. -/
def isDigitC (c : Char) : Bool := '0' ≤ c && c ≤ '9'

/-- Python's `\s` class (ASCII part): space, tab, newline, carriage
return, vertical tab, form feed. -/
def reSpace (c : Char) : Bool :=
  c = ' ' || c = '\t' || c = '\n' || c = '\r' || c = '\x0b' || c = '\x0c'

/-- The `[:\s]` class used between field markers and field values. -/
def colonSpace (c : Char) : Bool := c = ':' || reSpace c

/-- Model of Python `str.lower` on the character ranges the program uses:
ASCII `A`-`Z` and Cyrillic `А`-`Я`, `Ё`. -/
def pyLower (c : Char) : Char :=
  if 'A' ≤ c && c ≤ 'Z' then Char.ofNat (c.toNat + 32)
  else if 0x410 ≤ c.toNat && c.toNat ≤ 0x42F then Char.ofNat (c.toNat + 0x20)
  else if c.toNat = 0x401 then Char.ofNat 0x451
  else c

/-- Model of Python `str.upper` on the same ranges. -/
def pyUpper (c : Char) : Char :=
  if 'a' ≤ c && c ≤ 'z' then Char.ofNat (c.toNat - 32)
  else if 0x430 ≤ c.toNat && c.toNat ≤ 0x44F then Char.ofNat (c.toNat - 0x20)
  else if c.toNat = 0x451 then Char.ofNat 0x401
  else c

/-- Exact prefix test: `pre` is a prefix of `s`. -/
def prefixMatch : List Char → List Char → Bool
  | [], _ => true
  | _ :: _, [] => false
  | a :: as, b :: bs => a = b && prefixMatch as bs

/-- Case-insensitive prefix test (`re.IGNORECASE` literal matching). -/
def prefixCI : List Char → List Char → Bool
  | [], _ => true
  | _ :: _, [] => false
  | a :: as, b :: bs => pyLower a = pyLower b && prefixCI as bs

/-- Python's substring operator `needle in hay` (exact characters). -/
def containsSeq (needle : List Char) : List Char → Bool
  | [] => prefixMatch needle []
  | c :: rest => prefixMatch needle (c :: rest) || containsSeq needle rest

/-- Digit string to natural number. -/
def digitsToNat (ds : List Char) : Nat :=
  ds.foldl (fun n c => 10 * n + (c.toNat - 48)) 0

/-- A match of the numeric group `(\d+(?:\.\d+)?)`: integer digits,
fractional digits (empty when the optional group is not taken), and the
remaining input after the group. -/
structure NumMatch where
  intDigits : List Char
  fracDigits : List Char
  rest : List Char
  deriving DecidableEq, Repr

/-- Value of the matched numeric group, as Python's `float(group)`
idealised to an exact rational. -/
def numValue (m : NumMatch) : Rat :=
  mkRat (digitsToNat m.intDigits * 10 ^ m.fracDigits.length + digitsToNat m.fracDigits)
    (10 ^ m.fracDigits.length)

/-- Anchored match of `(\d+(?:\.\d+)?)` at the head of `s`.  `\d+` is
greedy; the optional fraction is taken exactly when a `.` followed by a
digit is present (no other backtracking of this sub-pattern is
observable in the source's patterns, whose continuations never start
with a digit or a dot). -/
def matchNumber (s : List Char) : Option NumMatch :=
  let ds := s.takeWhile isDigitC
  let r := s.dropWhile isDigitC
  if ds.isEmpty then none
  else
    match r with
    | '.' :: r2 =>
      let fs := r2.takeWhile isDigitC
      if fs.isEmpty then some ⟨ds, [], r⟩
      else some ⟨ds, fs, r2.dropWhile isDigitC⟩
    | _ => some ⟨ds, [], r⟩

/-- Anchored match of an amount pattern
`(\d+(?:\.\d+)?)\s*(?:cue1|cue2|...)` at the head of `s` (IGNORECASE).
`\s*` is greedy; no cue starts with a whitespace, digit or dot
character, so backtracking is not observable. -/
def matchAmountAt (cues : List (List Char)) (s : List Char) : Option NumMatch :=
  match matchNumber s with
  | none => none
  | some m =>
    if cues.any (fun cue => prefixCI cue (m.rest.dropWhile reSpace)) then some m else none

/-- Model of `re.search` for an amount pattern: leftmost match wins. -/
def searchAmount (cues : List (List Char)) : List Char → Option NumMatch
  | [] => none
  | c :: rest =>
    match matchAmountAt cues (c :: rest) with
    | some m => some m
    | none => searchAmount cues rest

/-- Model of `re.search(r'(\d+(?:\.\d+)?)', text)`: the first bare numeric token. -/
def searchBareNumber : List Char → Option NumMatch
  | [] => none
  | c :: rest =>
    match matchNumber (c :: rest) with
    | some m => some m
    | none => searchBareNumber rest

/-- Currency cues of `patterns['amount_rub']`. -/
def rubCues : List (List Char) := ["рубл".data, "₽".data, "руб".data, "RUB".data]

/-- Currency cues of `patterns['amount_usd']`. -/
def usdCues : List (List Char) := ["доллар".data, "$".data, "USD".data]

/-- Currency cues of `patterns['amount_eur']`. -/
def eurCues : List (List Char) := ["евро".data, "€".data, "EUR".data]

/-- The amount/currency detection loop of `_extract_with_regex`
(lines 135-149): try the RUB, USD, EUR patterns in declaration order,
stop at the first match; otherwise fall back to the first bare numeric
token with default currency RUB. -/
def extractAmountCurrency (text : List Char) : Option (Rat × String) :=
  match searchAmount rubCues text with
  | some m => some (numValue m, "RUB")
  | none =>
    match searchAmount usdCues text with
    | some m => some (numValue m, "USD")
    | none =>
      match searchAmount eurCues text with
      | some m => some (numValue m, "EUR")
      | none =>
        match searchBareNumber text with
        | some m => some (numValue m, "RUB")
        | none => none

/-! ## Recipient extraction

Pattern `(?:получател[ьюя]|кому|для|на имя|recipient|to)[:\s]*`
`([А-Яа-яA-Za-z\s]+?)(?:\s|$|,|на счет|счет|IBAN)` with IGNORECASE.
The marker alternatives are pairwise exclusive at any position (their
first characters differ; the three `получател[ьюя]` expansions differ in
their last character), so alternation backtracking reduces to trying the
unique matching alternative.  `[:\s]*` is greedy with backtracking; the
capture group is lazy. -/

/-- The marker alternatives, `получател[ьюя]` expanded. -/
def recipMarkers : List (List Char) :=
  ["получатель".data, "получателю".data, "получателя".data,
   "кому".data, "для".data, "на имя".data, "recipient".data, "to".data]

/-- The capture class `[А-Яа-яA-Za-z\s]` (IGNORECASE adds nothing: both
cases of each range are already present, and `ё`/`Ё` lie outside the
Cyrillic ranges). -/
def recipClass (c : Char) : Bool :=
  (0x410 ≤ c.toNat && c.toNat ≤ 0x42F) || (0x430 ≤ c.toNat && c.toNat ≤ 0x44F) ||
  ('A' ≤ c && c ≤ 'Z') || ('a' ≤ c && c ≤ 'z') || reSpace c

/-- The terminator `(?:\s|$|,|на счет|счет|IBAN)` tested at a position
(which alternative matches is irrelevant: nothing follows it). -/
def recipTerm (s : List Char) : Bool :=
  match s with
  | [] => true
  | c :: _ =>
    reSpace c || c = ',' || prefixCI "на счет".data s || prefixCI "счет".data s ||
      prefixCI "IBAN".data s

/-- Lazy capture `([А-Яа-яA-Za-z\s]+?)` followed by the terminator:
the shortest non-empty class-run after which the terminator matches. -/
def lazyCap : List Char → Option (List Char)
  | [] => none
  | c :: rest =>
    if recipClass c then
      if recipTerm rest then some [c]
      else
        match lazyCap rest with
        | some g => some (c :: g)
        | none => none
    else none

/-- Backtracking over greedy `[:\s]*`: try consuming the whole run
first, then give back one run character at a time (`runRev` is the
reversed not-yet-given-back part of the run). -/
def backtrackCap : List Char → List Char → Option (List Char)
  | [], s => lazyCap s
  | c :: cs, s =>
    match lazyCap s with
    | some g => some g
    | none => backtrackCap cs (c :: s)

/-- Anchored match of the recipient pattern at the head of `s`,
returning the capture group. -/
def matchRecipAt (s : List Char) : Option (List Char) :=
  recipMarkers.findSome? fun m =>
    if prefixCI m s then
      let rest := s.drop m.length
      backtrackCap (rest.takeWhile colonSpace).reverse (rest.dropWhile colonSpace)
    else none

/-- Model of `re.search` of the recipient pattern: leftmost match. -/
def searchRecip : List Char → Option (List Char)
  | [] => none
  | c :: rest =>
    match matchRecipAt (c :: rest) with
    | some g => some g
    | none => searchRecip rest

/-- Python `str.strip()`: whitespace off both ends. -/
def pyStripWs (s : List Char) : List Char :=
  ((s.dropWhile reSpace).reverse.dropWhile reSpace).reverse

/-- Model of `re.sub(r'\s+', ' ', s)`: collapse whitespace runs to single spaces. -/
def collapseWs : List Char → List Char
  | [] => []
  | [c] => if reSpace c then [' '] else [c]
  | c :: d :: rest =>
    if reSpace c && reSpace d then collapseWs (d :: rest)
    else (if reSpace c then ' ' else c) :: collapseWs (d :: rest)

/-- Python `str.strip(chars)`: the given characters off both ends. -/
def pyStripChars (bad : List Char) (s : List Char) : List Char :=
  ((s.dropWhile (bad.contains ·)).reverse.dropWhile (bad.contains ·)).reverse

/-- Recipient extraction of `_extract_with_regex` (lines 154-160): the
match's group stripped, or the sentinel; then whitespace collapsed and
surrounding punctuation stripped. -/
def extractRecipient (text : List Char) : List Char :=
  let r :=
    match searchRecip text with
    | some g => pyStripWs g
    | none => "Неизвестный получатель".data
  pyStripChars ".,!?;:".data (collapseWs r)

/-! ## Account number, IBAN and description extraction -/

/-- Anchored match of `(?:счет|счёт|account)[:\s]*(\d{10,20})`
(IGNORECASE).  The marker alternatives are pairwise exclusive at a
position; backtracking `[:\s]*` cannot help since `\d` rejects colon and
whitespace; greedy `\d{10,20}` takes up to 20 digits with nothing
after it in the pattern. -/
def matchAccountAt (s : List Char) : Option (List Char) :=
  ["счет".data, "счёт".data, "account".data].findSome? fun m =>
    if prefixCI m s then
      let ds := ((s.drop m.length).dropWhile colonSpace).takeWhile isDigitC
      if 10 ≤ ds.length then some (ds.take 20) else none
    else none

/-- Leftmost match of the account pattern. -/
def searchAccount : List Char → Option (List Char)
  | [] => none
  | c :: rest =>
    match matchAccountAt (c :: rest) with
    | some g => some g
    | none => searchAccount rest

/-- Class `[A-Z]` under IGNORECASE: any ASCII letter. -/
def asciiLetterCI (c : Char) : Bool := ('A' ≤ c && c ≤ 'Z') || ('a' ≤ c && c ≤ 'z')

/-- Class `[A-Z0-9]` under IGNORECASE. -/
def alnumCI (c : Char) : Bool := asciiLetterCI c || isDigitC c

/-- Anchored match of `(?:IBAN|iban)[:\s]*([A-Z]{2}\d{2}[A-Z0-9]{4,30})`
(IGNORECASE; the two marker alternatives coincide case-insensitively).
Backtracking `[:\s]*` cannot help (`[A-Z]` rejects colon/whitespace);
greedy `{4,30}` has nothing after it. -/
def matchIbanAt (s : List Char) : Option (List Char) :=
  if prefixCI "IBAN".data s then
    match (s.drop 4).dropWhile colonSpace with
    | a :: b :: c :: d :: rest2 =>
      if asciiLetterCI a && asciiLetterCI b && isDigitC c && isDigitC d then
        let run := rest2.takeWhile alnumCI
        if 4 ≤ run.length then some (a :: b :: c :: d :: run.take 30) else none
      else none
    | _ => none
  else none

/-- Leftmost match of the IBAN pattern. -/
def searchIban : List Char → Option (List Char)
  | [] => none
  | c :: rest =>
    match matchIbanAt (c :: rest) with
    | some g => some g
    | none => searchIban rest

/-- Class `[^,\n]`. -/
def notCommaNl (c : Char) : Bool := c ≠ ',' && c ≠ '\n'

/-- Anchored match of
`(?:назначение|описание|комментарий|цель|для|purpose)[:\s]*([^,\n]+)`
(IGNORECASE; marker alternatives pairwise exclusive).  `[:\s]*` is
greedy with observable backtracking: when the character after the
maximal run is a comma, newline or end of input, the engine gives back
one run character, which itself satisfies `[^,\n]`, so the group is that
single character. -/
def matchDescAt (s : List Char) : Option (List Char) :=
  ["назначение".data, "описание".data, "комментарий".data,
   "цель".data, "для".data, "purpose".data].findSome? fun m =>
    if prefixCI m s then
      let rest := s.drop m.length
      let run := rest.takeWhile colonSpace
      let rest2 := rest.dropWhile colonSpace
      match rest2 with
      | c :: _ =>
        if notCommaNl c then some (rest2.takeWhile notCommaNl)
        else if run.isEmpty then none
        else some [run.getLastD ' ']
      | [] => if run.isEmpty then none else some [run.getLastD ' ']
    else none

/-- Leftmost match of the description pattern. -/
def searchDesc : List Char → Option (List Char)
  | [] => none
  | c :: rest =>
    match matchDescAt (c :: rest) with
    | some g => some g
    | none => searchDesc rest

/-! ## The raw field map and `_extract_with_regex` -/

/-- A dynamically-typed Python value as stored in the raw field map
(number, string, or `None`). -/
inductive PyVal where
  | vnum (q : Rat)
  | vstr (s : String)
  | vnone
  deriving DecidableEq, Repr

/-- The raw field map returned by `_extract_with_regex` or decoded from
an embedded JSON block.  A field of value `none` models an *absent
dictionary key* (Python `'k' not in data`); `some .vnone` models a key
present with value `None`. -/
structure RawMap where
  amount : Option PyVal := none
  currency : Option PyVal := none
  recipient : Option PyVal := none
  account_number : Option PyVal := none
  iban : Option PyVal := none
  description : Option PyVal := none
  deriving DecidableEq, Repr

/-- Embeds `TransactionParser._extract_with_regex` (lines 109-181): amount and
currency via the prioritised cue patterns with bare-number fallback,
then recipient, account number, IBAN and description; fails with the
source's `ValueError` message when no amount is found.  All six keys of
the returned dictionary are present (optional fields with value
`None` when their patterns did not match). -/
def extract_with_regex (text : List Char) : Except String RawMap :=
  match extractAmountCurrency text with
  | none => Except.error "Не удалось извлечь сумму из текста"
  | some (amt, cur) =>
    Except.ok
      { amount := some (.vnum amt)
        currency := some (.vstr cur)
        recipient := some (.vstr ⟨extractRecipient text⟩)
        account_number := some ((searchAccount text).elim PyVal.vnone (fun g => .vstr ⟨g⟩))
        iban := some ((searchIban text).elim PyVal.vnone (fun g => .vstr ⟨g⟩))
        description := some ((searchDesc text).elim PyVal.vnone (fun g => .vstr ⟨pyStripWs g⟩)) }

/-! ## The canonical record and the structured record builder -/

/-- Embeds the `TransactionData` dataclass: the `timestamp` field, set to the
wall-clock time at construction and never consulted by any rule, is not
modelled. -/
structure TransactionData where
  amount : Rat
  currency : String
  recipient : String
  account_number : Option String := none
  iban : Option String := none
  description : Option String := none
  deriving DecidableEq, Repr

/-- Python `str.upper` on a string. -/
def strUpper (s : String) : String := ⟨s.data.map pyUpper⟩

/-- Python `str.lower` on a string. -/
def strLower (s : String) : String := ⟨s.data.map pyLower⟩

/-- Model of Python `float(s)` on a string: optional sign, digits with
optional fraction, nothing else (a restriction of Python's full float
grammar sufficient for this development; only the embedded-JSON branch,
exercised by no claim, can reach the string case). -/
def pyFloatOfStr (s : List Char) : Option Rat :=
  let t := pyStripWs s
  match t with
  | '-' :: rest =>
    match matchNumber rest with
    | some m => if m.rest.isEmpty then some (-(numValue m)) else none
    | none => none
  | _ =>
    match matchNumber t with
    | some m => if m.rest.isEmpty then some (numValue m) else none
    | none => none

/-- An optional raw field passed through to an optional record field
(`data.get(...)`): strings pass through, `None` and non-strings become
`None` (non-string values in optional slots arise only from the
embedded-JSON branch and are not distinguished further). -/
def optField (v : Option PyVal) : Option String :=
  match v with
  | some (.vstr s) => some s
  | _ => none

/-- The record-building tail of `TransactionParser.parse` (lines 93-103):
check the three mandatory keys, convert `amount` with `float(...)`,
upper-case `currency`, pass optional fields through.  Errors carry the
source's `ValueError` message for the mandatory-key check; the
conversion failures of the embedded-JSON branch (non-numeric amount
string, non-string currency or recipient — the latter two escape
`parse`'s handler in Python but are still contained by
`process_transaction`'s catch-all) are mapped to distinct error
strings. -/
def buildRecord (data : RawMap) : Except String TransactionData :=
  if data.amount.isNone || data.currency.isNone || data.recipient.isNone then
    Except.error "Отсутствуют обязательные поля: amount, currency, recipient"
  else
    match data.amount, data.currency, data.recipient with
    | some av, some cv, some rv =>
      match
        (match av with
         | .vnum q => some q
         | .vstr s => pyFloatOfStr s.data
         | .vnone => none) with
      | none => Except.error "could not convert amount to float"
      | some q =>
        match cv, rv with
        | .vstr c, .vstr r =>
          Except.ok
            { amount := q, currency := strUpper c, recipient := r
              account_number := optField data.account_number
              iban := optField data.iban
              description := optField data.description }
        | _, _ => Except.error "currency or recipient is not a string"
    | _, _, _ => Except.error "unreachable: mandatory keys checked above"

/-! ## The embedded-JSON branch of `parse`

`parse` prefers an embedded JSON block: when the text contains both an
opening and a closing brace it slices from the first opening brace to
the last closing brace and runs `json.loads` on the slice.  `json.loads`
is modelled here restricted to flat objects with double-quoted
escape-free string keys and string or number values — the shapes the
program's own prompt template requests.  No claim of this development
exercises the decoded values; the claims about `parse` only need the
branch condition and the containment of its failures. -/

/-- The opening brace character. -/
def lbrace : Char := Char.ofNat 123

/-- The closing brace character. -/
def rbrace : Char := Char.ofNat 125

/-- Slice `text[text.find('{') : text.rfind('}') + 1]`. -/
def sliceBraces (t : List Char) : List Char :=
  let i := (t.takeWhile (· ≠ lbrace)).length
  let j := t.length - 1 - (t.reverse.takeWhile (· ≠ rbrace)).length
  (t.take (j + 1)).drop i

/-- Body of a double-quoted JSON string without escapes: characters up
to the closing quote, and the input after it. -/
def jStringBody : List Char → Option (List Char × List Char)
  | [] => none
  | c :: rest =>
    if c = '"' then some ([], rest)
    else if c = '\\' then none
    else (jStringBody rest).map (fun p => (c :: p.1, p.2))

/-- A JSON value of the modelled subset: a string or a number. -/
def jValue (s : List Char) : Option (PyVal × List Char) :=
  match s with
  | '"' :: rest => (jStringBody rest).map (fun p => (.vstr ⟨p.1⟩, p.2))
  | '-' :: rest => (matchNumber rest).map (fun m => (.vnum (-(numValue m)), m.rest))
  | _ => (matchNumber s).map (fun m => (.vnum (numValue m), m.rest))

/-- Insert one decoded key/value pair into the raw field map (later
duplicates overwrite, as in Python's `json.loads`). -/
def setKey (data : RawMap) (k : List Char) (v : PyVal) : RawMap :=
  if k = "amount".data then { data with amount := some v }
  else if k = "currency".data then { data with currency := some v }
  else if k = "recipient".data then { data with recipient := some v }
  else if k = "account_number".data then { data with account_number := some v }
  else if k = "iban".data then { data with iban := some v }
  else if k = "description".data then { data with description := some v }
  else data

/-- Key/value pair sequence of a flat JSON object, fuelled by the input
length (each pair consumes at least one character). -/
def jPairs (fuel : Nat) (data : RawMap) (s : List Char) : Option RawMap :=
  match fuel with
  | 0 => none
  | fuel + 1 =>
    match s.dropWhile reSpace with
    | '"' :: rest =>
      match jStringBody rest with
      | none => none
      | some (k, rest2) =>
        match rest2.dropWhile reSpace with
        | ':' :: rest3 =>
          match jValue (rest3.dropWhile reSpace) with
          | none => none
          | some (v, rest4) =>
            let data := setKey data k v
            match rest4.dropWhile reSpace with
            | ',' :: rest5 => jPairs fuel data rest5
            | c :: rest5 => if c = rbrace && (rest5.dropWhile reSpace).isEmpty then some data else none
            | [] => none
        | _ => none
    | _ => none

/-- Model of `json.loads` on the sliced block, restricted as described above. -/
def jsonDecode (s : List Char) : Option RawMap :=
  match s.dropWhile reSpace with
  | c :: rest =>
    if c = lbrace then
      match rest.dropWhile reSpace with
      | d :: rest2 =>
        if d = rbrace && (rest2.dropWhile reSpace).isEmpty then some {}
        else jPairs (rest.length + 1) {} rest
      | [] => none
    else none
  | [] => none

/-- The `try` body of `TransactionParser.parse` (lines 81-103): embedded
JSON block preferred when both braces occur, otherwise regex extraction;
then the record builder.  The distinct error strings let theorems
distinguish which failure occurred. -/
def parseCore (text : List Char) : Except String TransactionData :=
  if text.contains lbrace && text.contains rbrace then
    match jsonDecode (sliceBraces text) with
    | none => Except.error "json decode error"
    | some data => buildRecord data
  else
    match extract_with_regex text with
    | Except.error e => Except.error e
    | Except.ok raw => buildRecord raw

/-- Embeds `TransactionParser.parse` (lines 68-107): the `except` clause wraps
every contained failure into one uniform `ValueError` message
interpolating the input text. -/
def parse (text : String) : Except String TransactionData :=
  match parseCore text.data with
  | Except.ok d => Except.ok d
  | Except.error _ =>
    Except.error ("Не удалось извлечь данные из текста: " ++ text)

/-! ## The rule validator (`TransactionValidator`) -/

/-- Table `self.max_amounts` (lines 191-195). -/
def max_amounts : List (String × Rat) := [("USD", 10000), ("EUR", 8500), ("RUB", 750000)]

/-- Table `self.min_amounts` (lines 204-208). -/
def min_amounts : List (String × Rat) := [("USD", 1), ("EUR", 1), ("RUB", 100)]

/-- Table `self.blocked_recipients` (lines 198-201). -/
def blocked_recipients : List String :=
  ["санкции", "санкционный", "blocked", "forbidden",
   "террор", "экстремизм", "наркотик", "оружие"]

/-- Table `self.supported_currencies` (line 211). -/
def supported_currencies : List String := ["USD", "EUR", "RUB", "GBP", "CHF", "JPY"]

/-- A validation message.  The source appends Russian f-strings; each
constructor stands for one of those format strings, carrying the
interpolated data, so that equality of messages mirrors equality of the
rendered strings. -/
inductive VMsg where
  /-- "Валюта {c} не входит в список поддерживаемых" (warning). -/
  | unsupportedCurrency (currency : String)
  /-- "Сумма {a} {c} превышает лимит {m} {c}" (error). -/
  | exceedsLimit (amount limit : Rat) (currency : String)
  /-- "Сумма {a} {c} меньше минимальной {m} {c}" (error). -/
  | belowMinimum (amount min : Rat) (currency : String)
  /-- "Получатель '{r}' содержит недопустимые ключевые слова" (error). -/
  | blockedRecipient (recipient : String)
  /-- "Имя получателя слишком короткое" (error). -/
  | recipientTooShort
  /-- "Имя получателя очень длинное" (warning). -/
  | recipientTooLong
  /-- "IBAN {i} может быть некорректным" (warning). -/
  | ibanSuspicious (iban : String)
  /-- "Номер счета {a} может быть некорректным" (warning). -/
  | accountSuspicious (account : String)
  /-- "Крупная сумма перевода, возможна дополнительная проверка" (warning). -/
  | largeRubTransfer
  /-- "Крупная валютная операция, возможна дополнительная проверка" (warning). -/
  | largeFxOperation
  deriving DecidableEq, Repr

/-- Discriminator for the amount-ceiling error. -/
def VMsg.isExceeds : VMsg → Bool
  | .exceedsLimit _ _ _ => true
  | _ => false

/-- Discriminator for the amount-floor error. -/
def VMsg.isBelowMin : VMsg → Bool
  | .belowMinimum _ _ _ => true
  | _ => false

/-- Discriminator for the blocked-recipient error. -/
def VMsg.isBlocked : VMsg → Bool
  | .blockedRecipient _ => true
  | _ => false

/-- Discriminator for the IBAN warning. -/
def VMsg.isIbanWarn : VMsg → Bool
  | .ibanSuspicious _ => true
  | _ => false

/-- The validation verdict returned by `validate_transaction`. -/
structure ValidationResult where
  is_valid : Bool
  errors : List VMsg
  warnings : List VMsg
  transaction : TransactionData
  deriving DecidableEq, Repr

/-- Class `[A-Z0-9]` exactly (the IBAN structural regex is compiled without
IGNORECASE and runs on the upper-cased string). -/
def upperAlnum (c : Char) : Bool := ('A' ≤ c && c ≤ 'Z') || isDigitC c

/-- Table `country_lengths` of `_validate_iban` (lines 297-303). -/
def ibanCountryLengths : List (String × Nat) :=
  [("RU", 33), ("DE", 22), ("FR", 27), ("GB", 22), ("US", 0)]

/-- Embeds `TransactionValidator._validate_iban` (lines 275-311): strip spaces
and upper-case, check length 15-34, match `^[A-Z]{2}\d{2}[A-Z0-9]+$`,
then check the country-specific exact length when one is configured
with a positive value (the `US: 0` entry makes the guard
`expected_length > 0` skip the length comparison for US). -/
def validate_iban (iban : String) : Bool :=
  let s := (iban.data.filter (· ≠ ' ')).map pyUpper
  if s.length < 15 || 34 < s.length then false
  else
    match s with
    | a :: b :: c :: d :: rest =>
      if ('A' ≤ a && a ≤ 'Z') && ('A' ≤ b && b ≤ 'Z') && isDigitC c && isDigitC d &&
          rest.all upperAlnum && !rest.isEmpty then
        match List.lookup (String.mk [a, b]) ibanCountryLengths with
        | some expected => if 0 < expected && s.length ≠ expected then false else true
        | none => true
      else false
    | _ => false

/-- Embeds `TransactionValidator._validate_account_number` (lines 313-340). -/
def validate_account_number (account : String) : Bool :=
  let clean := account.data.filter (fun c => !(reSpace c || c = '-'))
  if clean.isEmpty then false
  else if !clean.all isDigitC then false
  else if clean.length < 10 || 25 < clean.length then false
  else if clean.length = 20 &&
      (["408", "407", "405", "423", "426"].any (fun p => prefixMatch p.data clean)) then true
  else decide (10 ≤ clean.length)

/-- Rule 1 (lines 226-228): unsupported-currency warning. -/
def ruleCurrency (t : TransactionData) : List VMsg :=
  if supported_currencies.contains t.currency then []
  else [.unsupportedCurrency t.currency]

/-- Rules 2 and 3 (lines 230-237): amount bound errors, applied only
when the currency is a key of `max_amounts` (and then `min_amounts`,
which has the same keys, is also consulted). -/
def ruleAmount (t : TransactionData) : List VMsg :=
  match List.lookup t.currency max_amounts with
  | none => []
  | some mx =>
    (if mx < t.amount then [.exceedsLimit t.amount mx t.currency] else []) ++
    (match List.lookup t.currency min_amounts with
     | none => []
     | some mn => if t.amount < mn then [.belowMinimum t.amount mn t.currency] else [])

/-- Rule 4 (lines 239-244): blocked-recipient keyword scan on the
lower-cased recipient; the `break` after the first hit is mirrored by
`find?`, so at most one error is appended. -/
def ruleBlocked (t : TransactionData) : List VMsg :=
  match blocked_recipients.find? (fun b => containsSeq b.data (strLower t.recipient).data) with
  | some _ => [.blockedRecipient t.recipient]
  | none => []

/-- Rule 5, error half (lines 246-248). -/
def ruleNameShort (t : TransactionData) : List VMsg :=
  if t.recipient.length < 2 then [.recipientTooShort] else []

/-- Rule 5, warning half (the `elif`, lines 249-250). -/
def ruleNameLong (t : TransactionData) : List VMsg :=
  if t.recipient.length < 2 then []
  else if 100 < t.recipient.length then [.recipientTooLong] else []

/-- Rule 6 (lines 252-255): IBAN structural warning; Pythonic
truthiness of `transaction.iban` (`None` or the empty string skips
the check). -/
def ruleIban (t : TransactionData) : List VMsg :=
  match t.iban with
  | none => []
  | some ib =>
    if ib.isEmpty then [] else if validate_iban ib then [] else [.ibanSuspicious ib]

/-- Rule 7 (lines 257-260): account structural warning, same
truthiness handling. -/
def ruleAccount (t : TransactionData) : List VMsg :=
  match t.account_number with
  | none => []
  | some a =>
    if a.isEmpty then []
    else if validate_account_number a then [] else [.accountSuspicious a]

/-- Rule 8 (lines 262-266): large-amount advisory warnings
(`if`/`elif`). -/
def ruleLarge (t : TransactionData) : List VMsg :=
  if t.currency == "RUB" && decide ((100000 : Rat) < t.amount) then [.largeRubTransfer]
  else if (["USD", "EUR"] : List String).contains t.currency &&
      decide ((5000 : Rat) < t.amount) then
    [.largeFxOperation]
  else []

/-- Embeds `TransactionValidator.validate_transaction` (lines 213-273): the
rules run unconditionally in source order, appending to `errors` and
`warnings`; `is_valid` is `len(errors) == 0`. -/
def validate_transaction (t : TransactionData) : ValidationResult :=
  let errors := ruleAmount t ++ ruleBlocked t ++ ruleNameShort t
  let warnings := ruleCurrency t ++ ruleNameLong t ++ ruleIban t ++ ruleAccount t ++ ruleLarge t
  { is_valid := errors.length == 0, errors := errors, warnings := warnings, transaction := t }

/-! ## The processor (`TransactionProcessor`, regex mode) -/

/-- A per-item processing result.  The Python dictionary has an `error`
key only in the failure shape and `validation_result` only in the
success shape; both are modelled as options.  The `timestamp` key is
not modelled. -/
structure ProcessResult where
  transaction_data : Option TransactionData
  validation_result : Option ValidationResult
  error : Option String
  processing_method : String
  deriving DecidableEq, Repr

/-- Embeds `TransactionProcessor.process_transaction` (lines 404-445) with no
LLM configured (`self.llm is None`, the mode taken when no API key or
LangChain is available): parse, validate, and contain any failure as a
per-item error result. -/
def process_transaction (text : String) : ProcessResult :=
  match parse text with
  | Except.ok td =>
    { transaction_data := some td
      validation_result := some (validate_transaction td)
      error := none
      processing_method := "Regex" }
  | Except.error e =>
    { transaction_data := none
      validation_result := none
      error := some e
      processing_method := "Error" }

/-- Embeds `TransactionProcessor.batch_process` (lines 472-489): the sequential
accumulation loop, verbatim (`results = []`, append per item). -/
def batch_process (texts : List String) : List ProcessResult :=
  texts.foldl (fun results text => results ++ [process_transaction text]) []

/-- The spec's description of the IBAN structural check (§4.1 pattern,
length 15-34 after stripping spaces, country-specific exact lengths), as
amended: a configured length of `0` (the `US` entry) imposes no
constraint instead of disallowing the country. -/
def ibanSpecProp (s : List Char) : Prop :=
  (15 ≤ s.length ∧ s.length ≤ 34) ∧
  (∃ a b c d rest, s = a :: b :: c :: d :: rest ∧
     ('A' ≤ a ∧ a ≤ 'Z') ∧ ('A' ≤ b ∧ b ≤ 'Z') ∧
     isDigitC c = true ∧ isDigitC d = true ∧
     rest ≠ [] ∧ (∀ x ∈ rest, upperAlnum x = true)) ∧
  (∀ n, List.lookup (String.mk (s.take 2)) ibanCountryLengths = some n →
     0 < n → s.length = n)

/-! ## Helper lemmas about the validator -/

theorem beq_zero_eq_isEmpty (l : List VMsg) : (l.length == 0) = l.isEmpty := by
  cases l <;> rfl

theorem errors_eq (t : TransactionData) :
    (validate_transaction t).errors = ruleAmount t ++ ruleBlocked t ++ ruleNameShort t := rfl

theorem warnings_eq (t : TransactionData) :
    (validate_transaction t).warnings =
      ruleCurrency t ++ ruleNameLong t ++ ruleIban t ++ ruleAccount t ++ ruleLarge t := rfl

theorem ruleAmount_any_false (t : TransactionData) (p : VMsg → Bool)
    (he : ∀ a m c, p (.exceedsLimit a m c) = false)
    (hb : ∀ a m c, p (.belowMinimum a m c) = false) :
    (ruleAmount t).any p = false := by
  unfold ruleAmount
  split
  · rfl
  · rw [List.any_append]
    split <;> split <;> simp [he, hb]

theorem ruleBlocked_any_false (t : TransactionData) (p : VMsg → Bool)
    (hp : ∀ r, p (.blockedRecipient r) = false) :
    (ruleBlocked t).any p = false := by
  unfold ruleBlocked
  split <;> simp [hp]

theorem ruleNameShort_any_false (t : TransactionData) (p : VMsg → Bool)
    (hp : p .recipientTooShort = false) :
    (ruleNameShort t).any p = false := by
  unfold ruleNameShort
  split <;> simp [hp]

theorem errors_any_eq_ruleAmount (t : TransactionData) (p : VMsg → Bool)
    (hb : ∀ r, p (.blockedRecipient r) = false)
    (hs : p .recipientTooShort = false) :
    (validate_transaction t).errors.any p = (ruleAmount t).any p := by
  rw [errors_eq, List.any_append, List.any_append,
    ruleBlocked_any_false t p hb, ruleNameShort_any_false t p hs]
  simp

theorem ruleCurrency_any_false (t : TransactionData) (p : VMsg → Bool)
    (hp : ∀ c, p (.unsupportedCurrency c) = false) :
    (ruleCurrency t).any p = false := by
  unfold ruleCurrency
  split <;> simp [hp]

theorem ruleNameLong_any_false (t : TransactionData) (p : VMsg → Bool)
    (hp : p .recipientTooLong = false) :
    (ruleNameLong t).any p = false := by
  unfold ruleNameLong
  split
  · rfl
  · split <;> simp [hp]

theorem ruleAccount_any_false (t : TransactionData) (p : VMsg → Bool)
    (hp : ∀ a, p (.accountSuspicious a) = false) :
    (ruleAccount t).any p = false := by
  unfold ruleAccount
  split
  · rfl
  · split
    · rfl
    · split <;> simp [hp]

theorem ruleLarge_any_false (t : TransactionData) (p : VMsg → Bool)
    (h1 : p .largeRubTransfer = false) (h2 : p .largeFxOperation = false) :
    (ruleLarge t).any p = false := by
  unfold ruleLarge
  split
  · simp [h1]
  · split <;> simp [h2]

theorem warnings_any_eq_ruleIban (t : TransactionData) (p : VMsg → Bool)
    (hc : ∀ c, p (.unsupportedCurrency c) = false)
    (hl : p .recipientTooLong = false)
    (ha : ∀ a, p (.accountSuspicious a) = false)
    (hr : p .largeRubTransfer = false) (hf : p .largeFxOperation = false) :
    (validate_transaction t).warnings.any p = (ruleIban t).any p := by
  rw [warnings_eq, List.any_append, List.any_append, List.any_append, List.any_append,
    ruleCurrency_any_false t p hc, ruleNameLong_any_false t p hl,
    ruleAccount_any_false t p ha, ruleLarge_any_false t p hr hf]
  simp

/-! ## Claim C9 -/

/-- C9: for every transaction record, the verdict's `is_valid` equals
emptiness of its `errors` list (warnings never affect validity). -/
theorem claim9_is_valid_iff_no_errors (t : TransactionData) :
    (validate_transaction t).is_valid = (validate_transaction t).errors.isEmpty := by
  show ((ruleAmount t ++ ruleBlocked t ++ ruleNameShort t).length == 0) = _
  exact beq_zero_eq_isEmpty _

/-! ## Claim C2 -/

/-- C2: `validate_transaction` appends a blocked-recipient error exactly
when the lower-cased recipient contains one of the blocked keywords —
independently of every other field — and at most one such error is ever
appended (the keyword loop breaks at the first hit). -/
theorem claim2_blocked_recipient (t : TransactionData) :
    ((validate_transaction t).errors.any VMsg.isBlocked =
      blocked_recipients.any (fun b => containsSeq b.data (strLower t.recipient).data)) ∧
    (validate_transaction t).errors.countP VMsg.isBlocked ≤ 1 := by
  constructor
  · rw [errors_eq, List.any_append, List.any_append]
    rw [ruleAmount_any_false t _ (fun _ _ _ => rfl) (fun _ _ _ => rfl),
      ruleNameShort_any_false t _ rfl]
    simp only [Bool.false_or, Bool.or_false]
    unfold ruleBlocked
    cases h : blocked_recipients.find? (fun b => containsSeq b.data (strLower t.recipient).data) with
    | none =>
      have := List.find?_eq_none.mp h
      simp only [List.any_nil]
      symm
      simp only [List.any_eq_false]
      intro x hx
      exact this x hx
    | some b =>
      have hmem := List.mem_of_find?_eq_some h
      have hp := List.find?_some h
      have hany : blocked_recipients.any
          (fun b => containsSeq b.data (strLower t.recipient).data) = true :=
        List.any_eq_true.mpr ⟨b, hmem, hp⟩
      simp [hany, VMsg.isBlocked]
  · rw [errors_eq, List.countP_append, List.countP_append]
    have h1 : (ruleAmount t).countP VMsg.isBlocked = 0 := by
      rw [List.countP_eq_zero]
      intro e he
      have := ruleAmount_any_false t VMsg.isBlocked (fun _ _ _ => rfl) (fun _ _ _ => rfl)
      rw [List.any_eq_false] at this
      exact fun hc => (this e he) hc
    have h3 : (ruleNameShort t).countP VMsg.isBlocked = 0 := by
      rw [List.countP_eq_zero]
      intro e he
      have := ruleNameShort_any_false t VMsg.isBlocked rfl
      rw [List.any_eq_false] at this
      exact fun hc => (this e he) hc
    have h2 : (ruleBlocked t).countP VMsg.isBlocked ≤ 1 := by
      unfold ruleBlocked
      split
      · exact le_trans (List.countP_le_length _) (by simp)
      · simp
    omega

/-! ## Claim C1 -/

theorem ruleAmount_eq_of_lookup (t : TransactionData) (mx mn : Rat)
    (hmx : List.lookup t.currency max_amounts = some mx)
    (hmn : List.lookup t.currency min_amounts = some mn) :
    ruleAmount t =
      (if mx < t.amount then [VMsg.exceedsLimit t.amount mx t.currency] else []) ++
      (if t.amount < mn then [VMsg.belowMinimum t.amount mn t.currency] else []) := by
  unfold ruleAmount
  rw [hmx, hmn]

theorem ruleAmount_eq_nil_of_lookup_none (t : TransactionData)
    (hmx : List.lookup t.currency max_amounts = none) :
    ruleAmount t = [] := by
  unfold ruleAmount
  rw [hmx]

/-- C1: for a record whose currency has configured bounds,
`validate_transaction` appends the exceeds-limit error exactly when the
amount is strictly above the configured max and the below-minimum error
exactly when it is strictly below the configured min; for a record
whose currency has no configured bounds, neither amount-bound message
ever appears. -/
theorem claim1_amount_bounds (t : TransactionData) :
    (∀ mx mn : Rat, List.lookup t.currency max_amounts = some mx →
        List.lookup t.currency min_amounts = some mn →
        ((validate_transaction t).errors.any VMsg.isExceeds = true ↔ mx < t.amount) ∧
        ((validate_transaction t).errors.any VMsg.isBelowMin = true ↔ t.amount < mn)) ∧
    (List.lookup t.currency max_amounts = none →
        (validate_transaction t).errors.any VMsg.isExceeds = false ∧
        (validate_transaction t).errors.any VMsg.isBelowMin = false) := by
  constructor
  · intro mx mn hmx hmn
    rw [errors_any_eq_ruleAmount t _ (fun _ => rfl) rfl,
      errors_any_eq_ruleAmount t _ (fun _ => rfl) rfl,
      ruleAmount_eq_of_lookup t mx mn hmx hmn]
    constructor
    · rw [List.any_append]
      by_cases h : mx < t.amount
      · simp [h, VMsg.isExceeds]
      · simp only [if_neg h, List.any_nil, Bool.false_or]
        split <;> simp [VMsg.isExceeds, h]
    · rw [List.any_append]
      by_cases h : t.amount < mn
      · simp [h, VMsg.isBelowMin]
      · simp only [if_neg h, List.any_nil, Bool.or_false]
        split <;> simp [VMsg.isBelowMin, h]
  · intro hmx
    rw [errors_any_eq_ruleAmount t _ (fun _ => rfl) rfl,
      errors_any_eq_ruleAmount t _ (fun _ => rfl) rfl,
      ruleAmount_eq_nil_of_lookup_none t hmx]
    simp

/-- Witness for C1 at the spec's own example: an 800000 RUB transfer
triggers the exceeds-limit error (and not the below-minimum one). -/
theorem claim1_witness :
    ((validate_transaction
        { amount := 800000, currency := "RUB", recipient := "Иван Петров" }).errors.any
      VMsg.isExceeds = true) ∧
    ((validate_transaction
        { amount := 800000, currency := "RUB", recipient := "Иван Петров" }).errors.any
      VMsg.isBelowMin = false) := by
  have h := (claim1_amount_bounds
    { amount := 800000, currency := "RUB", recipient := "Иван Петров" }).1
    750000 100 (by decide) (by decide)
  exact ⟨h.1.mpr (by norm_num),
    Bool.eq_false_iff.mpr (fun hc => by
      have := h.2.mp hc
      norm_num at this)⟩

/-! ## Claim C5 -/

/-- C5 counterexample: JPY is in the code's `supported_currencies`
list, so a JPY record with valid amount and recipient yields *no*
warning at all — the claim's "a warning only" (from the unsupported
-currency rule) is false on the code. -/
theorem claim5_counterexample :
    supported_currencies.contains "JPY" = true ∧
    (validate_transaction
      { amount := 500, currency := "JPY", recipient := "Ivan Petrov" }).warnings = [] ∧
    (validate_transaction
      { amount := 500, currency := "JPY", recipient := "Ivan Petrov" }).errors = [] ∧
    (validate_transaction
      { amount := 500, currency := "JPY", recipient := "Ivan Petrov" }).is_valid = true := by
  refine ⟨rfl, ?_, ?_, ?_⟩ <;> rfl

/-- C5 as amended: JPY is a *supported* currency; a JPY record whose
amount and recipient satisfy all other rules produces no warnings, no
errors, and `is_valid = true`. -/
theorem claim5_jpy_clean (a : Rat) (r : String)
    (h2 : 2 ≤ r.length) (h100 : r.length ≤ 100)
    (hb : blocked_recipients.all (fun b => !containsSeq b.data (strLower r).data) = true) :
    validate_transaction { amount := a, currency := "JPY", recipient := r } =
      { is_valid := true, errors := [], warnings := [],
        transaction := { amount := a, currency := "JPY", recipient := r } } := by
  have hfind : blocked_recipients.find?
      (fun b => containsSeq b.data (strLower r).data) = none := by
    rw [List.find?_eq_none]
    intro x hx
    have := List.all_eq_true.mp hb x hx
    simp at this
    simp [this]
  have hshort : ¬ r.length < 2 := by omega
  have hlong : ¬ 100 < r.length := by omega
  have hlk : List.lookup "JPY" max_amounts = none := by decide
  have hmem : "JPY" ∈ supported_currencies := by decide
  unfold validate_transaction ruleCurrency ruleAmount ruleBlocked ruleNameShort
    ruleNameLong ruleIban ruleAccount ruleLarge
  simp [hfind, hshort, hlong, hlk, hmem]

/-- Witness for C5's amended theorem at a concrete record. -/
theorem claim5_witness :
    validate_transaction { amount := 500, currency := "JPY", recipient := "Ivan Petrov" } =
      { is_valid := true, errors := [], warnings := [],
        transaction := { amount := 500, currency := "JPY", recipient := "Ivan Petrov" } } :=
  claim5_jpy_clean 500 "Ivan Petrov" (by decide) (by decide) (by decide)

/-! ## Claim C4 -/

/-- C4 counterexample: the claim says country code US is disallowed,
but the `US: 0` table entry combined with the `expected_length > 0`
guard means no length constraint is enforced for US, so a US-prefixed
string passing the generic checks is *accepted*. -/
theorem claim4_counterexample :
    "US12ABCDEFGHIJK".data.take 2 = "US".data ∧
    validate_iban "US12ABCDEFGHIJK" = true := by
  exact ⟨rfl, by decide⟩

theorem ibanCountry_iff (cc : String) (L : Nat) :
    (match List.lookup cc ibanCountryLengths with
     | some expected => if 0 < expected && L ≠ expected then false else true
     | none => true) = true ↔
    (∀ n, List.lookup cc ibanCountryLengths = some n → 0 < n → L = n) := by
  cases hl : List.lookup cc ibanCountryLengths with
  | none => simp
  | some e =>
    simp only []
    constructor
    · intro h n hn hpos
      injection hn with hne
      subst hne
      by_contra hL
      rw [if_pos (by simp [hpos, hL])] at h
      exact absurd h (by simp)
    · intro h
      by_cases h0 : 0 < e
      · have hL : L = e := h e rfl h0
        rw [if_neg (by simp [hL])]
      · rw [if_neg (by simp [h0])]

theorem validate_iban_iff_spec (ib : String) :
    validate_iban ib = true ↔ ibanSpecProp ((ib.data.filter (· ≠ ' ')).map pyUpper) := by
  unfold validate_iban ibanSpecProp
  generalize (ib.data.filter (· ≠ ' ')).map pyUpper = s
  rcases s with _ | ⟨a, _ | ⟨b, _ | ⟨c, _ | ⟨d, rest⟩⟩⟩⟩
  · simp
  · simp
  · simp
  · simp
  · simp only [List.length_cons, List.take_succ_cons, List.take_zero]
    by_cases hlen : rest.length + 1 + 1 + 1 + 1 < 15 ∨ 34 < rest.length + 1 + 1 + 1 + 1
    · rw [if_pos (by simp; omega)]
      constructor
      · intro h
        exact absurd h (by simp)
      · intro ⟨⟨hge, hle⟩, _⟩
        omega
    · rw [if_neg (by simp; omega)]
      by_cases hck : (('A' ≤ a && a ≤ 'Z') && ('A' ≤ b && b ≤ 'Z') && isDigitC c &&
          isDigitC d && rest.all upperAlnum && !rest.isEmpty) = true
      · rw [if_pos hck, ibanCountry_iff]
        simp only [Bool.and_eq_true, decide_eq_true_eq, Bool.not_eq_true',
          List.isEmpty_eq_false] at hck
        constructor
        · intro h
          exact ⟨⟨by omega, by omega⟩,
            ⟨a, b, c, d, rest, rfl, hck.1.1.1.1.1, hck.1.1.1.1.2, hck.1.1.1.2,
              hck.1.1.2, hck.2, List.all_eq_true.mp hck.1.2⟩, h⟩
        · intro ⟨_, _, h⟩
          exact h
      · rw [if_neg hck]
        constructor
        · intro h
          exact absurd h (by simp)
        · intro ⟨_, ⟨a', b', c', d', rest', heq, ha', hb', hc', hd', hne', hall'⟩, _⟩
          injection heq with h1 heq
          injection heq with h2 heq
          injection heq with h3 heq
          injection heq with h4 heq
          subst h1; subst h2; subst h3; subst h4; subst heq
          exact (hck (by
            simp only [Bool.and_eq_true, decide_eq_true_eq, Bool.not_eq_true',
              List.isEmpty_eq_false]
            exact ⟨⟨⟨⟨⟨ha', hb'⟩, hc'⟩, hd'⟩, List.all_eq_true.mpr hall'⟩, hne'⟩)).elim

/-- C4 (amended): the IBAN structural check accepts exactly the strings
that, space-stripped and upper-cased, have length 15-34, the
2-letters + 2-digits + non-empty-alphanumerics shape, and the exact
configured length for country codes with a positive configured length
(US's `0` entry enforces nothing); `DE89370400440532013000` passes,
`DE123` fails; a record whose non-empty IBAN fails the check receives a
warning and never an error. -/
theorem claim4_iban_structural :
    (∀ ib : String,
      validate_iban ib = true ↔ ibanSpecProp ((ib.data.filter (· ≠ ' ')).map pyUpper)) ∧
    validate_iban "DE89370400440532013000" = true ∧
    validate_iban "DE123" = false ∧
    (∀ t : TransactionData, ∀ sib : String, t.iban = some sib → sib.isEmpty = false →
      validate_iban sib = false →
      (validate_transaction t).warnings.any VMsg.isIbanWarn = true ∧
      (validate_transaction t).errors.any VMsg.isIbanWarn = false) := by
  refine ⟨validate_iban_iff_spec, by decide, by decide, ?_⟩
  intro t sib hib hne hfail
  constructor
  · rw [warnings_any_eq_ruleIban t _ (fun _ => rfl) rfl (fun _ => rfl) rfl rfl]
    unfold ruleIban
    rw [hib]
    simp [hne, hfail, VMsg.isIbanWarn]
  · rw [errors_any_eq_ruleAmount t _ (fun _ => rfl) rfl]
    exact ruleAmount_any_false t _ (fun _ _ _ => rfl) (fun _ _ _ => rfl)

/-- Witness for C4's theorem: a record carrying the malformed IBAN
`DE123` gets the IBAN warning and no IBAN-related error. -/
theorem claim4_witness :
    (validate_transaction
        { amount := 100, currency := "RUB", recipient := "Иван",
          account_number := none, iban := some "DE123", description := none }).warnings.any
      VMsg.isIbanWarn = true ∧
    (validate_transaction
        { amount := 100, currency := "RUB", recipient := "Иван",
          account_number := none, iban := some "DE123", description := none }).errors.any
      VMsg.isIbanWarn = false :=
  claim4_iban_structural.2.2.2
    { amount := 100, currency := "RUB", recipient := "Иван",
      account_number := none, iban := some "DE123", description := none }
    "DE123" rfl rfl (by decide)

/-! ## Helper lemmas about extraction -/

theorem matchNumber_cons_nondigit {c : Char} (rest : List Char) (h : isDigitC c = false) :
    matchNumber (c :: rest) = none := by
  unfold matchNumber
  simp [List.takeWhile_cons, h]

theorem matchNumber_cons_digit {c : Char} (rest : List Char) (h : isDigitC c = true) :
    (matchNumber (c :: rest)).isSome = true := by
  unfold matchNumber
  simp only [List.takeWhile_cons, h, if_true, List.isEmpty_cons]
  split
  · rename_i hfalse
    exact absurd hfalse (by simp)
  · split
    · split <;> rfl
    · rfl

theorem searchBareNumber_eq (s : List Char) :
    searchBareNumber s = matchNumber (s.dropWhile (fun c => !isDigitC c)) := by
  induction s with
  | nil => rfl
  | cons c rest ih =>
    by_cases h : isDigitC c = true
    · rw [List.dropWhile_cons_of_neg (by simp [h])]
      obtain ⟨m, hm⟩ := Option.isSome_iff_exists.mp (matchNumber_cons_digit rest h)
      unfold searchBareNumber
      rw [hm]
    · have h' : isDigitC c = false := by simpa using h
      rw [List.dropWhile_cons_of_pos (by simp [h'])]
      unfold searchBareNumber
      rw [matchNumber_cons_nondigit rest h']
      exact ih

theorem searchAmount_none_of_noDigit (cues : List (List Char)) (s : List Char)
    (h : s.any isDigitC = false) : searchAmount cues s = none := by
  induction s with
  | nil => rfl
  | cons c rest ih =>
    simp only [List.any_cons, Bool.or_eq_false_iff] at h
    unfold searchAmount matchAmountAt
    rw [matchNumber_cons_nondigit rest h.1]
    exact ih h.2

theorem searchBareNumber_none_of_noDigit (s : List Char)
    (h : s.any isDigitC = false) : searchBareNumber s = none := by
  rw [searchBareNumber_eq]
  have : s.dropWhile (fun c => !isDigitC c) = [] := by
    rw [List.dropWhile_eq_nil_iff]
    intro x hx
    have := List.any_eq_false.mp h x hx
    simp [this]
  rw [this]
  rfl

theorem extractAmountCurrency_none_of_noDigit (s : List Char)
    (h : s.any isDigitC = false) : extractAmountCurrency s = none := by
  unfold extractAmountCurrency
  rw [searchAmount_none_of_noDigit rubCues s h, searchAmount_none_of_noDigit usdCues s h,
    searchAmount_none_of_noDigit eurCues s h, searchBareNumber_none_of_noDigit s h]

theorem dropWhile_head_digit (s : List Char) (hd : s.any isDigitC = true) :
    ∃ c rest, s.dropWhile (fun c => !isDigitC c) = c :: rest ∧ isDigitC c = true := by
  induction s with
  | nil => simp at hd
  | cons a as ih =>
    by_cases h : isDigitC a = true
    · exact ⟨a, as, List.dropWhile_cons_of_neg (by simp [h]), h⟩
    · have h' : isDigitC a = false := by simpa using h
      simp only [List.any_cons, h', Bool.false_or] at hd
      obtain ⟨c, rest, hcr, hc⟩ := ih hd
      exact ⟨c, rest, by rw [List.dropWhile_cons_of_pos (by simp [h'])]; exact hcr, hc⟩

theorem extractAmountCurrency_isSome (s : List Char) (hd : s.any isDigitC = true) :
    ∃ p, extractAmountCurrency s = some p := by
  unfold extractAmountCurrency
  cases h1 : searchAmount rubCues s with
  | some m => exact ⟨_, rfl⟩
  | none =>
    cases h2 : searchAmount usdCues s with
    | some m => exact ⟨_, rfl⟩
    | none =>
      cases h3 : searchAmount eurCues s with
      | some m => exact ⟨_, rfl⟩
      | none =>
        obtain ⟨c, rest, hcr, hc⟩ := dropWhile_head_digit s hd
        have hbare : searchBareNumber s = matchNumber (c :: rest) := by
          rw [searchBareNumber_eq, hcr]
        obtain ⟨m, hm⟩ := Option.isSome_iff_exists.mp (matchNumber_cons_digit rest hc)
        rw [hbare, hm]
        exact ⟨_, rfl⟩

/-! ## Claim C3 -/

/-- C3 counterexample: in `$100` the number is immediately *preceded*
by its USD cue, so by the claim the extraction should yield USD; but
the patterns only match a cue *after* the number, so no cue pattern
matches and the extraction falls back to the bare number with the
default currency RUB. -/
theorem claim3_counterexample :
    extractAmountCurrency "$100".data = some (100, "RUB") ∧ ("RUB" : String) ≠ "USD" := by
  exact ⟨by decide, by decide⟩

/-- C3 (amended): the detection tries the currency patterns in the
fixed declaration order RUB, USD, EUR, each matching a number *followed*
(after optional whitespace) by one of its cues; the first pattern that
matches anywhere determines amount and currency, regardless of where in
the text the match occurs. -/
theorem claim3_cue_priority (t : List Char) :
    (∀ m, searchAmount rubCues t = some m →
       extractAmountCurrency t = some (numValue m, "RUB")) ∧
    (searchAmount rubCues t = none → ∀ m, searchAmount usdCues t = some m →
       extractAmountCurrency t = some (numValue m, "USD")) ∧
    (searchAmount rubCues t = none → searchAmount usdCues t = none →
       ∀ m, searchAmount eurCues t = some m →
       extractAmountCurrency t = some (numValue m, "EUR")) := by
  refine ⟨?_, ?_, ?_⟩
  · intro m hm
    unfold extractAmountCurrency
    rw [hm]
  · intro h1 m hm
    unfold extractAmountCurrency
    rw [h1, hm]
  · intro h1 h2 m hm
    unfold extractAmountCurrency
    rw [h1, h2, hm]

/-- Witness for C3: a text whose USD-cued number appears *before* its
RUB-cued number still extracts the RUB-cued number (declaration order,
not textual position). -/
theorem claim3_witness :
    searchAmount usdCues "заплатил 50 долларов и 250 рублей Ивану".data ≠ none ∧
    extractAmountCurrency "заплатил 50 долларов и 250 рублей Ивану".data =
      some (250, "RUB") := by
  have h := (claim3_cue_priority "заплатил 50 долларов и 250 рублей Ивану".data).1
    ⟨['2', '5', '0'], [], " рублей Ивану".data⟩ (by decide)
  refine ⟨by decide, ?_⟩
  rw [h]
  decide

/-! ## Claim C6 -/

/-- C6: a text with no digit (and no embedded JSON block) makes
extraction fail, and `process_transaction` contains the failure as a
per-item result with `transaction_data = none` and the error message
populated — it never raises (the model is a total function). -/
theorem claim6_no_number_contained (t : String)
    (hd : t.data.any isDigitC = false)
    (hb : (t.data.contains lbrace && t.data.contains rbrace) = false) :
    process_transaction t =
      { transaction_data := none, validation_result := none,
        error := some ("Не удалось извлечь данные из текста: " ++ t),
        processing_method := "Error" } := by
  have hcore : parseCore t.data = Except.error "Не удалось извлечь сумму из текста" := by
    unfold parseCore
    rw [hb]
    simp only [Bool.false_eq_true, if_false]
    unfold extract_with_regex
    rw [extractAmountCurrency_none_of_noDigit t.data hd]
  unfold process_transaction parse
  rw [hcore]

/-- Witness for C6 on a digit-free text. -/
theorem claim6_witness :
    process_transaction "привет мир" =
      { transaction_data := none, validation_result := none,
        error := some "Не удалось извлечь данные из текста: привет мир",
        processing_method := "Error" } := by
  rw [claim6_no_number_contained "привет мир" (by decide) (by decide)]
  decide

/-! ## Claim C7 -/

/-- C7: when none of the three currency-cued patterns matches but the
text contains a digit, extraction falls back to the first numeric token
of the text (the number starting at the first digit position) and the
default currency RUB. -/
theorem claim7_default_rub (t : String)
    (hrub : searchAmount rubCues t.data = none)
    (husd : searchAmount usdCues t.data = none)
    (heur : searchAmount eurCues t.data = none)
    (hd : t.data.any isDigitC = true) :
    ∃ m, matchNumber (t.data.dropWhile (fun c => !isDigitC c)) = some m ∧
      extractAmountCurrency t.data = some (numValue m, "RUB") := by
  obtain ⟨c, rest, hcr, hc⟩ := dropWhile_head_digit t.data hd
  obtain ⟨m, hm⟩ := Option.isSome_iff_exists.mp (matchNumber_cons_digit rest hc)
  refine ⟨m, by rw [hcr]; exact hm, ?_⟩
  unfold extractAmountCurrency
  rw [hrub, husd, heur, searchBareNumber_eq, hcr, hm]

/-- Witness for C7: `число 42 и 7` has no currency cue; the extraction
takes the first numeric token 42 with currency RUB. -/
theorem claim7_witness :
    extractAmountCurrency "число 42 и 7".data = some (42, "RUB") := by
  obtain ⟨m, hm, hx⟩ := claim7_default_rub "число 42 и 7"
    (by decide) (by decide) (by decide) (by decide)
  rw [hx]
  have : m = ⟨['4', '2'], [], " и 7".data⟩ := by
    have h42 : matchNumber ("число 42 и 7".data.dropWhile (fun c => !isDigitC c)) =
        some ⟨['4', '2'], [], " и 7".data⟩ := by decide
    rw [h42] at hm
    exact (Option.some_inj.mp hm).symm
  rw [this]
  decide

/-! ## Claim C8 -/

theorem batch_process_eq_map (ts : List String) :
    batch_process ts = ts.map process_transaction := by
  suffices h : ∀ acc, ts.foldl (fun rs t => rs ++ [process_transaction t]) acc =
      acc ++ ts.map process_transaction by
    simpa using h []
  induction ts with
  | nil => intro acc; simp
  | cons t rest ih =>
    intro acc
    simp only [List.foldl_cons, List.map_cons, ih, List.append_assoc, List.singleton_append]

/-- C8: `batch_process` returns exactly one result per input, in input
order; every item's result equals what processing that text alone
produces; and an item whose extraction fails yields the contained error
result without affecting the siblings. -/
theorem claim8_batch_order_containment (ts : List String) :
    ((batch_process ts).length = ts.length) ∧
    (∀ k : Nat, (batch_process ts)[k]? = (ts[k]?).map process_transaction) ∧
    (∀ k : Nat, ∀ t' : String, ts[k]? = some t' → ∀ e, parse t' = Except.error e →
      (batch_process ts)[k]? = some
        { transaction_data := none, validation_result := none, error := some e,
          processing_method := "Error" }) := by
  refine ⟨?_, ?_, ?_⟩
  · rw [batch_process_eq_map, List.length_map]
  · intro k
    rw [batch_process_eq_map, List.getElem?_map]
  · intro k t' hk e he
    rw [batch_process_eq_map, List.getElem?_map, hk]
    show some (process_transaction t') = _
    unfold process_transaction
    rw [he]

/-- Witness for C8: in a two-item batch whose second item has no
number, the second result is the contained error result. -/
theorem claim8_witness :
    (batch_process ["перевести 500", "нет числа"])[1]? = some
      { transaction_data := none, validation_result := none,
        error := some "Не удалось извлечь данные из текста: нет числа",
        processing_method := "Error" } :=
  (claim8_batch_order_containment ["перевести 500", "нет числа"]).2.2 1 "нет числа"
    (by decide) "Не удалось извлечь данные из текста: нет числа" (by rfl)

/-! ## Claim C10 -/

theorem sentinel_clean :
    pyStripChars ".,!?;:".data (collapseWs "Неизвестный получатель".data) =
      "Неизвестный получатель".data := by decide

theorem parseCore_eq_regex (t : List Char)
    (hb : (t.contains lbrace && t.contains rbrace) = false) :
    parseCore t =
      match extractAmountCurrency t with
      | none => Except.error "Не удалось извлечь сумму из текста"
      | some (amt, cur) =>
        Except.ok
          { amount := amt, currency := strUpper cur, recipient := ⟨extractRecipient t⟩
            account_number :=
              optField (some ((searchAccount t).elim PyVal.vnone (fun g => .vstr ⟨g⟩)))
            iban := optField (some ((searchIban t).elim PyVal.vnone (fun g => .vstr ⟨g⟩)))
            description :=
              optField (some ((searchDesc t).elim PyVal.vnone
                (fun g => .vstr ⟨pyStripWs g⟩))) } := by
  unfold parseCore
  rw [hb]
  simp only [Bool.false_eq_true, if_false]
  unfold extract_with_regex
  cases h : extractAmountCurrency t with
  | none => rfl
  | some p =>
    obtain ⟨amt, cur⟩ := p
    rfl

/-- C10: on a text without an embedded JSON block, when at least one
digit occurs the regex path always builds a full record (amount,
currency and recipient are mandatory fields of the record type, and
the recipient falls back to the sentinel when no marker phrase
matches); the only failure the regex path can produce is the
missing-amount extraction error, so the builder's
missing-mandatory-fields failure is reachable only through the
embedded-JSON branch. -/
theorem claim10_regex_always_builds (t : String)
    (hb : (t.data.contains lbrace && t.data.contains rbrace) = false) :
    ((t.data.any isDigitC = true) →
      ((parseCore t.data).toOption.isSome = true) ∧
      (searchRecip t.data = none →
        (parseCore t.data).toOption.map TransactionData.recipient =
          some "Неизвестный получатель")) ∧
    (∀ e, parseCore t.data = Except.error e →
      e = "Не удалось извлечь сумму из текста") := by
  have hp := parseCore_eq_regex t.data hb
  constructor
  · intro hd
    obtain ⟨⟨amt, cur⟩, hs⟩ := extractAmountCurrency_isSome t.data hd
    rw [hs] at hp
    constructor
    · rw [hp]
      rfl
    · intro hr
      rw [hp]
      have hrec : extractRecipient t.data = "Неизвестный получатель".data := by
        unfold extractRecipient
        rw [hr]
        exact sentinel_clean
      simp only [Except.toOption, Option.map_some]
      rw [hrec]
      rfl
  · intro e he
    rw [hp] at he
    cases h : extractAmountCurrency t.data with
    | none =>
      rw [h] at he
      injection he with h'
      exact h'.symm
    | some p =>
      obtain ⟨amt, cur⟩ := p
      rw [h] at he
      exact absurd he (by simp)

/-- Witness for C10: `перевести 500` (no braces, has digits, no
recipient marker) parses to a record whose recipient is the sentinel. -/
theorem claim10_witness :
    (parseCore "перевести 500".data).toOption.map TransactionData.recipient =
      some "Неизвестный получатель" :=
  ((claim10_regex_always_builds "перевести 500" (by decide)).1 (by decide)).2 (by decide)

end FinComp

